import Mathlib

/-!
# Verification of the ops setup-wizard orchestration core

Shallow embedding of the `ops` CLI (Node.js) orchestration layer:
the `runSteps` short-circuit runner, the step functions
(`stepConfigureNodeEnv`, `stepConfigureGoogle`, `stepConfigureFirebaseProject`,
`stepConfigureFontAwesome`, `stepFinish`), the Firebase registry-file reading
chain (`getProjectName` and its helpers), the validators, the gcloud module,
the Font Awesome configuration chain, and the streaming `exec` wrapper.

Effectful JavaScript (logging, shell command execution, interactive prompts,
file reads) is modelled by explicit state passing of an event trace: every
external effect appends an `Event` to the trace.  External collaborators
(the file system, the shell, the prompter, `JSON.parse`, the Firebase login)
are parameters, mirroring the source's default-parameter dependency injection.
-/

namespace Ops

/-- Severities of the structured logger (`logger.info` / `logger.error` /
`logger.success` / `logger.log` / `logger.warn`). -/
inductive Sev where
  | info
  | error
  | success
  | normal
  | warn
deriving DecidableEq, Repr

/-- Command-line options object (`options`) threaded through a sequence.
`none` models a JavaScript `undefined` field. -/
structure Opts where
  directory : Option String := none
  projectKey : Option String := none
  env : Option String := none
  verbose : Option Bool := none
  debug : Option Bool := none
deriving DecidableEq, Repr

/-- Observable external effects, recorded in order of occurrence.
`probe i o` is emitted only by the probe steps used to observe which
steps the runner invokes and with which options object. -/
inductive Event where
  | log (sev : Sev) (lines : List String)
  | execCmd (cmd : String)
  | fsRead (path : String)
  | promptUser
  | probe (i : Nat) (options : Opts)
deriving DecidableEq, Repr

/-- Effect monad: explicit state passing of the event trace. -/
def Eff (α : Type) : Type := List Event → α × List Event

instance : Monad Eff where
  pure a := fun tr => (a, tr)
  bind x f := fun tr => f (x tr).1 (x tr).2

/-- Run an effectful computation on an initial trace. -/
def Eff.run {α : Type} (x : Eff α) (tr : List Event) : α × List Event := x tr

@[simp] theorem Eff.run_pure {α : Type} (a : α) (tr : List Event) :
    (pure a : Eff α).run tr = (a, tr) := rfl

@[simp] theorem Eff.run_bind {α β : Type} (x : Eff α) (f : α → Eff β)
    (tr : List Event) :
    (x >>= f).run tr = (f (x.run tr).1).run (x.run tr).2 := rfl

@[simp] theorem Eff.run_map {α β : Type} (f : α → β) (x : Eff α)
    (tr : List Event) :
    (f <$> x).run tr = (f (x.run tr).1, (x.run tr).2) := rfl

@[simp] theorem Eff.pure_apply {α : Type} (a : α) (tr : List Event) :
    (pure a : Eff α) tr = (a, tr) := rfl

@[simp] theorem Eff.bind_apply {α β : Type} (x : Eff α) (f : α → Eff β)
    (tr : List Event) :
    (x >>= f) tr = f (x tr).1 (x tr).2 := rfl

/-- Append one event to the trace. -/
def emit (e : Event) : Eff Unit := fun tr => ((), tr ++ [e])

@[simp] theorem Eff.emit_apply (e : Event) (tr : List Event) :
    emit e tr = ((), tr ++ [e]) := rfl

@[simp] theorem Eff.run_emit (e : Event) (tr : List Event) :
    (emit e).run tr = ((), tr ++ [e]) := rfl

/-- `logger.info(lines)` -/
def logInfo (lines : List String) : Eff Unit := emit (.log .info lines)

/-- `logger.error(lines)` -/
def logError (lines : List String) : Eff Unit := emit (.log .error lines)

/-- `logger.success(lines)` -/
def logSuccess (lines : List String) : Eff Unit := emit (.log .success lines)

/-- `logger.log(lines)` -/
def logLog (lines : List String) : Eff Unit := emit (.log .normal lines)

/-- A JavaScript exception value; only `message` and `stack` matter here. -/
structure JsError where
  message : String
  stack : String := ""
deriving DecidableEq, Repr

/-- A JSON value, as produced by `JSON.parse`. -/
inductive Json where
  | null
  | bool (b : Bool)
  | num (n : Int)
  | str (s : String)
  | arr (elems : List Json)
  | obj (fields : List (String × Json))

/-- `typeof j === 'object'` (true for objects, arrays and `null`). -/
def Json.typeofObject : Json → Bool
  | .null => true
  | .arr _ => true
  | .obj _ => true
  | _ => false

/-- JavaScript truthiness of a JSON value. -/
def Json.truthy : Json → Bool
  | .null => false
  | .bool b => b
  | .num n => n != 0
  | .str s => s.length > 0
  | .arr _ => true
  | .obj _ => true

/-- `Array.isArray j` -/
def Json.isArray : Json → Bool
  | .arr _ => true
  | _ => false

/-- `Object.keys(j)` (own enumerable keys; array indices for arrays). -/
def Json.keys : Json → List String
  | .obj fields => fields.map Prod.fst
  | .arr elems => (List.range elems.length).map toString
  | _ => []

/-- Property access `j[k]`; `none` models `undefined`. -/
def Json.get (j : Json) (k : String) : Option Json :=
  match j with
  | .obj fields => fields.lookup k
  | _ => none

/-- The uniform outcome object threaded through the system
(`{error, message?, messages?, ...payload}`).  The JavaScript `firebaserc`
payload field holds the raw file text in `readFirebaserc`'s result and the
parsed JSON in `parseFirebaserc`'s result; the two uses are split into two
typed fields.  `none` models an absent (`undefined`) field. -/
structure Result where
  error : Bool := false
  message : Option String := none
  messages : Option (List String) := none
  token : Option String := none
  projectName : Option String := none
  firebasercText : Option String := none
  firebasercJson : Option Json := none
  json : Option Json := none
  projects : Option Json := none
  email : Option String := none

/-- Response of the `exec` wrapper: `{code, stderr, stdout}`.  The exit
code is `Option Int` because Node's `exit` event may deliver `null`. -/
structure ExecResponse where
  code : Option Int
  stderr : String := ""
  stdout : String := ""
deriving DecidableEq, Repr

/-- Template-literal interpolation of a possibly-`undefined` string:
`undefined` prints as `"undefined"`. -/
def jsShow (s : Option String) : String := s.getD "undefined"

/-- JavaScript `a || b` for a possibly-absent string `a` (an absent or
empty string is falsy). -/
def jsOrElse (a : Option String) (b : String) : String :=
  match a with
  | some s => if s.length > 0 then s else b
  | none => b

/-- A step as consumed by `runSteps`: takes the shared options, may
perform effects, and either returns a Result (`some r`) or throws
(`none`, modelling a rejected promise escaping the step). -/
def Step : Type := Opts → Eff (Option Result)

/-- The step runner (ops module, `runSteps`):

```
export const runSteps = async (steps, options) => {
  const step = steps.shift()
  const result = await step(options)
  const runNextStep = !result.error && steps.length
  if (result.error) {
    if (result.message) { logger.error([result.message]) }
    if (result.messages) { logger.log(result.messages) }
  }
  return runNextStep ? runSteps(steps, options) : result
}
```

`steps.shift()` mutates the caller's array in place; that mutation is
modelled by returning the final state of the array alongside the result.
On an empty array `step` is `undefined` and the invocation throws, which
is modelled by a `none` result (likewise when a step itself throws). -/
def runSteps : List Step → Opts → Eff (Option Result × List Step)
  | [], _ => pure (none, [])
  | step :: steps, options => do
    let res ← step options
    match res with
    | none => pure (none, steps)
    | some result =>
      let runNextStep := !result.error && steps.length != 0
      if result.error then do
        (match result.message with
         | some m => if m.length > 0 then logError [m] else pure ()
         | none => pure ())
        (match result.messages with
         | some ms => logLog ms
         | none => pure ())
        if runNextStep then runSteps steps options
        else pure (some result, steps)
      else
        if runNextStep then runSteps steps options
        else pure (some result, steps)

/-! ## validate module (src/validate.js) -/

/-- `runValidators(validators, successResponse)`: fold the validators,
keeping the first error or the given success response. -/
def runValidators (validators : List (Unit → Result))
    (successResponse : Result) : Result :=
  validators.foldl
    (fun currentResult fnValidator =>
      if currentResult.error then currentResult
      else
        let result := fnValidator ()
        if result.error then result else currentResult)
    successResponse

/-- `validateDirectory(directory)`: a non-empty string is required. -/
def validateDirectory (directory : Option String) : Result :=
  let successResponse : Result :=
    { error := false, message := some "The directory option is valid." }
  let errorResponse : Result :=
    { error := true, message := some "The directory option is required." }
  let isValidDirectory : Bool :=
    match directory with
    | some d => d.length > 0
    | none => false
  if isValidDirectory then successResponse else errorResponse

/-- `validateProjectKey(projectKey)`: a non-empty string is required. -/
def validateProjectKey (projectKey : Option String) : Result :=
  let successResponse : Result :=
    { error := false, message := some "The projectKey option is valid." }
  let errorResponse : Result :=
    { error := true, message := some "The projectKey option is required." }
  let isValidProjectKey : Bool :=
    match projectKey with
    | some k => k.length > 0
    | none => false
  if isValidProjectKey then successResponse else errorResponse

/-- `validateProjectName(projectName)`: the value looked up in the registry
must be a non-empty string (`typeof projectName === 'string' && length > 0`). -/
def validateProjectName (projectName : Option Json) : Result :=
  let successResponse : Result :=
    { error := false, message := some "The project name is valid." }
  let errorResponse : Result :=
    { error := true, message := some "The project name is invalid." }
  let isValidProjectName : Bool :=
    match projectName with
    | some (.str s) => s.length > 0
    | _ => false
  if isValidProjectName then successResponse else errorResponse

/-- `validateFirebasercProjects(projects)`: truthy, of object type, not an
array, with at least one key. -/
def validateFirebasercProjects (projects : Option Json) : Result :=
  let successResponse : Result :=
    { error := false,
      message := some "The .firebaserc file contains a valid \"projects\" property." }
  let errorResponse : Result :=
    { error := true,
      message := some "The .firebaserc file does not contain a valid \"projects\" property." }
  let haveProjects : Bool :=
    match projects with
    | some j => j.truthy && j.typeofObject
    | none => false
  let haveValidProjectsType := haveProjects &&
    (match projects with
     | some j => !j.isArray
     | none => false)
  let haveDefinedProjects := haveValidProjectsType &&
    (match projects with
     | some j => j.keys.length > 0
     | none => false)
  if haveDefinedProjects then successResponse else errorResponse

/-- `validateParsedFirebaserc(firebaserc)`: an object-typed truthy value
with at least one key. -/
def validateParsedFirebaserc (firebaserc : Option Json) : Result :=
  let successResponse : Result :=
    { error := false, message := some "The .firebaserc file contains a valid object." }
  let errorResponse : Result :=
    { error := true, message := some "The .firebaserc file contains an empty or invalid object." }
  let haveFirebaserc : Bool :=
    match firebaserc with
    | some j => j.typeofObject && j.truthy
    | none => false
  let isNotEmptyObject : Bool :=
    match firebaserc with
    | some j => j.keys.length > 0
    | none => false
  let isValidFirebaserc := haveFirebaserc && isNotEmptyObject
  if isValidFirebaserc then successResponse else errorResponse

/-! ## firebase module (registry-file chain) -/

/-- `validateFirebaserc(firebaserc)`: run the parsed-object validator and the
`projects`-property validator.  The second closure reads `firebaserc.projects`,
which `runValidators` only evaluates when the first validator succeeded. -/
def validateFirebaserc (firebaserc : Option Json) : Result :=
  runValidators
    [fun _ => validateParsedFirebaserc firebaserc,
     fun _ => validateFirebasercProjects (firebaserc.bind (Json.get · "projects"))]
    { error := false, message := some "The .firebaserc JSON is valid." }

/-- `validateOptions(options)`: validate `directory` and `projectKey`. -/
def validateOptions (options : Opts) : Result :=
  runValidators
    [fun _ => validateDirectory options.directory,
     fun _ => validateProjectKey options.projectKey]
    { error := false, message := some "The options are valid." }

/-- Model of `path.join(a, b)` for the one use site (joining a directory
with the literal `.firebaserc` file name). -/
def pathJoin (a b : String) : String := a ++ "/" ++ b

/-- Message of the `TypeError` thrown by `path.join` when `directory` is
`undefined`. -/
def pathTypeErrorMessage : String :=
  "The \"path\" argument must be of type string. Received undefined"

/-- `readFirebaserc(directory)`: read `<directory>/.firebaserc`; any thrown
error is caught and only its message is kept ("the stack trace tends to be
noise here").  The file system is the parameter `fsRead`; a read is recorded
as an `fsRead` event. -/
def readFirebaserc (fsRead : String → Except JsError String)
    (directory : Option String) : Eff Result :=
  match directory with
  | none =>
    -- `path.join(undefined, '.firebaserc')` throws before any read happens.
    pure { error := true, message := some pathTypeErrorMessage }
  | some d => do
    let firebasercPath := pathJoin d ".firebaserc"
    emit (.fsRead firebasercPath)
    match fsRead firebasercPath with
    | .ok firebaserc => pure { error := false, firebasercText := some firebaserc }
    | .error e => pure { error := true, message := some e.message }

/-- `parseJson(jsonString)`: wrap `JSON.parse` (the parameter `jsonParse`),
catching a parse error and keeping only its message. -/
def parseJson (jsonParse : String → Except JsError Json)
    (jsonString : String) : Result :=
  match jsonParse jsonString with
  | .ok json => { error := false, json := some json }
  | .error e => { error := true, message := some e.message }

/-- `parseFirebaserc(firebaserc, parser = parseJson)`: parse the file text;
on success return `{error: false, firebaserc: json}`. -/
def parseFirebaserc (jsonParse : String → Except JsError Json)
    (firebaserc : String) : Result :=
  let result := parseJson jsonParse firebaserc
  if result.error then result
  else { error := false, firebasercJson := result.json }

/-- `getFirebaserc(directory, parser, reader)`: read then parse.  On the
non-error path `readFirebaserc` always set the text field, so the `getD`
default is never the value passed on. -/
def getFirebaserc (fsRead : String → Except JsError String)
    (jsonParse : String → Except JsError Json)
    (directory : Option String) : Eff Result := do
  let result ← readFirebaserc fsRead directory
  if result.error then pure result
  else pure (parseFirebaserc jsonParse (result.firebasercText.getD ""))

/-- `findProjectsInFirebaserc(firebaserc, validator = validateFirebaserc)`. -/
def findProjectsInFirebaserc (firebaserc : Option Json) : Result :=
  let validationResult := validateFirebaserc firebaserc
  if validationResult.error then validationResult
  else { error := false, projects := firebaserc.bind (Json.get · "projects") }

/-- `findProjectNameByKey(projectKey, projects, validator)`: look
`projects[projectKey]` up (an `undefined` key coerces to the property name
`"undefined"`), validate it, and on success return it.  The validator
guarantees the value is a string on the non-error path. -/
def findProjectNameByKey (projectKey : Option String)
    (projects : Option Json) : Result :=
  let projectName : Option Json :=
    match projects with
    | some ps => ps.get (projectKey.getD "undefined")
    | none => none
  let result := validateProjectName projectName
  if result.error then result
  else
    { error := false,
      projectName :=
        match projectName with
        | some (.str s) => some s
        | _ => none }

/-- `getFirebasercProjects(directory, parser, reader)`. -/
def getFirebasercProjects (fsRead : String → Except JsError String)
    (jsonParse : String → Except JsError Json)
    (directory : Option String) : Eff Result := do
  let firebasercJson ← getFirebaserc fsRead jsonParse directory
  if firebasercJson.error then pure firebasercJson
  else pure (findProjectsInFirebaserc firebasercJson.firebasercJson)

/-- `readProjectNameFromFirebaserc(options, parser, reader)`. -/
def readProjectNameFromFirebaserc (fsRead : String → Except JsError String)
    (jsonParse : String → Except JsError Json)
    (options : Opts) : Eff Result := do
  let readerResult ← getFirebasercProjects fsRead jsonParse options.directory
  if readerResult.error then pure readerResult
  else pure (findProjectNameByKey options.projectKey readerResult.projects)

/-- `getProjectName(options, validator, runner)`: validate the options,
then read the project name out of the registry file. -/
def getProjectName (fsRead : String → Except JsError String)
    (jsonParse : String → Except JsError Json)
    (options : Opts) : Eff Result :=
  let validation := validateOptions options
  if validation.error then pure validation
  else readProjectNameFromFirebaserc fsRead jsonParse options

/-! ## exec wrapper, caller's view -/

/-- The `exec` command wrapper as seen by its callers: executing `command`
records an `execCmd` event and yields the response the external world
(`world`) gives for that command.  (The internal stream
semantics of the wrapper are modelled separately by `execOnEvents`.) -/
def execE (world : String → ExecResponse) (command : String) :
    Eff ExecResponse := do
  emit (.execCmd command)
  pure (world command)

/-! ## gcloud module (src/gcloud.js) -/

/-- `validateGoogleProjectName(projectName)`. -/
def validateGoogleProjectName (projectName : Option String) : Result :=
  let isValidProjectName : Bool :=
    match projectName with
    | some s => s.length > 0
    | none => false
  let error := !isValidProjectName
  let message :=
    if error then "The Google Cloud project name is invalid."
    else "The Google Cloud project name is valid."
  { error := error, message := some message }

/-- `setGoogleCloudProject(projectName, executable = exec)`. -/
def setGoogleCloudProject (world : String → ExecResponse)
    (projectName : Option String) : Eff Result := do
  let flags := "--no-user-output-enabled"
  let pn := jsShow projectName
  let response ← execE world s!"gcloud config set project {pn} {flags}"
  let error := response.code != some 0
  let message :=
    if error then s!"Failed to set the Google Cloud project to \"{pn}\"."
    else s!"The Google Cloud project has been set to \"{pn}\"."
  pure { error := error, message := some message }

/-- `configureGoogleProject(projectName, executable = exec)`: validate the
name, then shell out to the gcloud CLI. -/
def configureGoogleProject (world : String → ExecResponse)
    (projectName : Option String) : Eff Result :=
  let validationResult := validateGoogleProjectName projectName
  if validationResult.error then pure validationResult
  else setGoogleCloudProject world projectName

/-! ## firebase module (shell and login collaborators) -/

/-- `configureFirebaseProject(options, executable = exec)`: `firebase use
<projectKey>`. -/
def configureFirebaseProject (world : String → ExecResponse)
    (options : Opts) : Eff Result := do
  let pk := jsShow options.projectKey
  let response ← execE world s!"firebase use {pk}"
  let error := response.code != some 0
  let message :=
    if error then "The Firebase project could not be configured."
    else "The Firebase project has been configured."
  pure { error := error, message := some message }

/-- `configureFirebaseWebFrameworks(options = {}, executable = exec)`. -/
def configureFirebaseWebFrameworks (world : String → ExecResponse)
    (_options : Opts) : Eff Result := do
  let response ← execE world "firebase experiments:enable webframeworks"
  let error := response.code != some 0
  let message :=
    if error then "The Firebase webframeworks feature could not be enabled."
    else "The Firebase webframeworks feature has been enabled."
  pure { error := error, message := some message }

/-- Outcome of `cli.login` (firebase-tools): on success a user object whose
`email` may still be absent or empty. -/
structure LoginUser where
  email : Option String := none
deriving DecidableEq, Repr

/-- `configureFirebaseLogin(options = {}, executable = cli.login)`: await the
login provider, catching a rejection into `{error: true, message: e.message}`
(logged only in debug mode); the outcome is valid only when it carries a
truthy `email`.  On an invalid outcome the message falls back to a static
line when the caught message is absent or empty. -/
def configureFirebaseLogin (loginFn : Eff (Except JsError LoginUser))
    (options : Opts) : Eff Result := do
  let debugFlag := options.debug.getD false
  let outcome ← loginFn
  match outcome with
  | .error e => do
    if debugFlag then logError [e.message] else pure ()
    -- the caught object `{error: true, message}` has no email, so it is
    -- never valid: `error()` is returned with `result?.message || fallback`.
    pure { error := true,
           message := some (jsOrElse (some e.message) "The Firebase login attempt failed.") }
  | .ok user =>
    let valid : Bool :=
      match user.email with
      | some s => s.length > 0
      | none => false
    if valid then
      pure { email := user.email, error := false,
             message := some "The user has been logged in to Firebase." }
    else
      -- the user object carries no `message` property.
      pure { error := true, message := some "The Firebase login attempt failed." }

/-- `makeFirebaseConfigurationSteps(options, executable)`: the three inner
Firebase steps; each ignores the state passed by the reducer.  The source
calls `configureFirebaseLogin()` with no arguments, so the login step runs
with the default (empty) options object. -/
def makeFirebaseConfigurationSteps (world : String → ExecResponse)
    (loginFn : Eff (Except JsError LoginUser))
    (options : Opts) : List (Result → Eff Result) :=
  [fun _ => do
    logInfo ["Enabling Firebase's experimental webframeworks feature ..."]
    configureFirebaseWebFrameworks world options,
   fun _ => do
    logInfo ["Signing into Firebase ..."]
    configureFirebaseLogin loginFn {},
   fun _ => do
    logInfo ["Configuring the Firebase project ..."]
    configureFirebaseProject world options]

/-- `configureFirebase(options, steps = makeFirebaseConfigurationSteps(...))`:
reduce over the steps, skipping the rest once a state carries an error and
keeping the running success state otherwise. -/
def configureFirebase (steps : List (Result → Eff Result)) : Eff Result :=
  let successResponse : Result :=
    { error := false, message := some "Firebase has been configured." }
  steps.foldlM
    (fun state fnStep => do
      let result ← if state.error then pure state else fnStep state
      pure (if result.error then result else state))
    successResponse

/-! ## Font Awesome chain (ops module) -/

/-- Environment variables read at module load (`PROCESS.env`); `none` models
an unset variable. -/
structure EnvVars where
  fontAwesomeToken : Option String := none
  fontAwesomeTokenLocation : Option String := none
  opsNodeEnv : Option String := none
  opsProjectKey : Option String := none
deriving DecidableEq, Repr

/-- `FONT_AWESOME_ACCOUNT_URL` -/
def FONT_AWESOME_ACCOUNT_URL : String := "fontawesome.com/account"

/-- `FONT_AWESOME_NPM_REGISTRY` -/
def FONT_AWESOME_NPM_REGISTRY : String := "npm.fontawesome.com/"

/-- `FONT_AWESOME_TOKEN_LOCATION` with its destructuring default. -/
def FONT_AWESOME_TOKEN_LOCATION (env : EnvVars) : String :=
  env.fontAwesomeTokenLocation.getD FONT_AWESOME_ACCOUNT_URL

/-- One question of an inquirer prompt specification. -/
structure PromptQuestion where
  qtype : String
  name : String
  message : String
  dflt : String
deriving DecidableEq, Repr

/-- The answers object resolved by the prompter (`{token: ...}`); inquirer
mocks in the suite may also resolve `{error, message}`-shaped objects. -/
structure PromptResponse where
  error : Option Bool := none
  message : Option String := none
  token : Option String := none
deriving DecidableEq, Repr

/-- The interactive prompter: takes the question list, may perform effects,
and resolves with answers or rejects with an error. -/
def Prompter : Type := List PromptQuestion → Eff (Except JsError PromptResponse)

/-- `obtainFontAwesomeToken(prompter = inquirer.prompt)`: prompt for the
token (a rejection is caught into `{error: true, message}`); an absent or
empty token makes the result an error with the static invalid-token
message (a caught prompt message takes precedence when non-empty). -/
def obtainFontAwesomeToken (env : EnvVars) (prompter : Prompter) :
    Eff Result := do
  let location := FONT_AWESOME_TOKEN_LOCATION env
  logInfo [s!"Obtain the Font Awesome token from {location}"]
  let rawResponse ← prompter
    [{ qtype := "input", name := "token",
       message := "Enter the Font Awesome token.",
       dflt := env.fontAwesomeToken.getD "" }]
  let response : PromptResponse :=
    match rawResponse with
    | .ok r => r
    | .error e => { error := some true, message := some e.message }
  let promptError := response.error.getD false
  let token := response.token
  let isValidToken : Bool :=
    match token with
    | some t => t.length > 0
    | none => false
  let error := promptError || !isValidToken
  let message :=
    if error then jsOrElse response.message "The Font Awesome token is invalid."
    else "The Font Awesome token has been obtained."
  pure { error := error, message := some message, token := token }

/-- `setFontAwesomeRegistry(executable = exec)`. -/
def setFontAwesomeRegistry (world : String → ExecResponse) : Eff Result := do
  let reg := FONT_AWESOME_NPM_REGISTRY
  let response ← execE world s!"npm config set \"@fortawesome:registry\" {reg}"
  let error := response.code != some 0
  let message :=
    if error then "Failed to set the Font Awesome registry."
    else "The Font Awesome registry has been set."
  pure { error := error, message := some message }

/-- `setFontAwesomeToken(options, executable = exec)`: `options` is the
accumulated state object carrying the token obtained earlier. -/
def setFontAwesomeToken (world : String → ExecResponse)
    (options : Result) : Eff Result := do
  logInfo ["Configuring access to the Font Awesome registry ..."]
  let reg := FONT_AWESOME_NPM_REGISTRY
  let tok := jsShow options.token
  let response ← execE world s!"npm config set \"//{reg}:_authToken\" {tok}"
  let error := response.code != some 0
  let message :=
    if error then "Failed to set the Font Awesome token."
    else "The Font Awesome token has been set."
  pure { error := error, message := some message }

/-- `makeFontAwesomeConfigurationSteps(prompter, executable)`. -/
def makeFontAwesomeConfigurationSteps (env : EnvVars)
    (world : String → ExecResponse) (prompter : Prompter) :
    List (Result → Eff Result) :=
  [fun _ => obtainFontAwesomeToken env prompter,
   fun _ => setFontAwesomeRegistry world,
   fun state => setFontAwesomeToken world state]

/-- `configureFontAwesome(steps = makeFontAwesomeConfigurationSteps())`:
reduce over the steps; once a step errors its result is returned and no
later step runs; a token returned by a successful step is attached to the
shared state for the later steps. -/
def configureFontAwesome (steps : List (Result → Eff Result)) : Eff Result := do
  logInfo ["Setting up Font Awesome ... \n"]
  let successResponse : Result :=
    { error := false, message := some "Font Awesome is ready." }
  steps.foldlM
    (fun state step => do
      let latestState ← if state.error then pure state else step state
      let haveToken : Bool := !latestState.error &&
        (match latestState.token with
         | some t => t.length > 0
         | none => false)
      let state := if haveToken then { state with token := latestState.token } else state
      pure (if latestState.error then latestState else state))
    successResponse

/-! ## Step functions (ops module) -/

/-- `configureNodeEnv(env)`: assign `shelljs.env['NODE_ENV'] = env` and
re-read it.  `shelljs.env` is `process.env`, whose values are coerced to
strings on assignment, so the strict re-read comparison fails exactly when
`env` is not a string (here: absent). -/
def configureNodeEnv (env : Option String) : Result :=
  { error := env.isNone }

/-- `stepConfigureNodeEnv(options, executable = configureNodeEnv)`. -/
def stepConfigureNodeEnv (options : Opts)
    (executable : Option String → Result) : Eff Result := do
  let ev := jsShow options.env
  logInfo [s!"Configuring the NODE_ENV environment variable to {ev} ..."]
  let result := executable options.env
  if result.error then
    let msgs :=
      [s!"Failed to set the NODE_ENV environment variable to {ev}.\n",
       "- Confirm the OPS_NODE_ENV env var in the .env file or the env option on the command line.\n",
       "- Ensure the env option is set to a valid and desirable value.\n"]
    pure { result with messages := some msgs }
  else do
    logLog [s!"NODE_ENV is set to {ev}."]
    logSuccess ["The environment is ready."]
    pure result

/-- `stepConfigureGoogle(options, parser = configureGoogleProject,
reader = getProjectName)`: read the project name from the registry file,
then hand it to the gcloud configuration; on failure attach the
remediation lines. -/
def stepConfigureGoogle (options : Opts)
    (parser : Option String → Eff Result)
    (reader : Opts → Eff Result) : Eff Result := do
  logInfo ["Configuring Google Cloud ..."]
  let projectNameResult ← reader options
  let error := projectNameResult.error
  let projectName := projectNameResult.projectName
  let pn := jsShow projectName
  logLog [s!"Setting the Google Cloud project to \"{pn}\" ..."]
  let result ← if error then pure projectNameResult else parser projectName
  if result.error then
    let pk := jsShow options.projectKey
    let msgs :=
      [s!"Failed to configure Google Cloud using \"{pk}\" as the projectKey.\n",
       "  1. Review the OPS_PROJECT_KEY env var in the .env file or the \"projectKey\" flag on the command line.\n",
       "     Ensure the project key is set to a valid and desirable value.\n\n",
       "  2. Ensure the .firebaserc file has a property for the corresponding project key.\n",
       "     Ensure the project name in the .firebaserc file is set to a valid and desirable value.\n\n",
       "  3. Ensure your gcloud user has access to the project referenced in the .firebaserc file.\n",
       "     Run \"gcloud auth list\" to review your auth state.\n"]
    pure { result with messages := some msgs }
  else do
    logSuccess ["Google Cloud is ready."]
    pure result

/-- `stepConfigureFirebaseProject(options, executable = configureFirebase)`. -/
def stepConfigureFirebaseProject (options : Opts)
    (executable : Opts → Eff Result) : Eff Result := do
  let result ← executable options
  if result.error then
    let pk := jsShow options.projectKey
    let msgs :=
      [s!"Failed to configure Firebase using \"{pk}\" as the projectKey.\n",
       "  1. Confirm the OPS_PROJECT_KEY env var in the .env file or the \"projectKey\" flag on the command line.\n",
       "     Ensure the project key is set to a valid and desirable value.\n\n",
       "  2. Ensure the .firebaserc file has a property for the corresponding project key.\n",
       "     Ensure the project name in the .firebaserc file is set to a valid and desirable value.\n\n",
       "  3. Ensure your gcloud user has access to the project referenced in the .firebaserc file.\n",
       "     Run \"firebase login:list\" to review your auth state.\n"]
    pure { result with messages := some msgs }
  else do
    logSuccess ["Firebase is ready."]
    pure result

/-- `stepConfigureFontAwesome(executable = configureFontAwesome)`: the bound
step ignores the options object it receives from the runner. -/
def stepConfigureFontAwesome (executable : Eff Result) : Eff Result := do
  let result ← executable
  if result.error then
    pure { result with messages := some ["Failed to configure Font Awesome."] }
  else
    pure result

/-- `stepFinish()`: always succeeds. -/
def stepFinish : Eff Result := do
  logSuccess ["\nThe setup is complete. Happy coding!\n"]
  pure { error := false }

/-! ## Sequence composition and CLI actions (ops module) -/

/-- All external collaborators a full `setup` run depends on. -/
structure Providers where
  env : EnvVars
  world : String → ExecResponse
  fsRead : String → Except JsError String
  jsonParse : String → Except JsError Json
  prompter : Prompter
  loginFn : Eff (Except JsError LoginUser)

/-- The `allSteps` list of `setup`, each wired to its default provider
(`stepConfigureFontAwesome` is bound to `configureFontAwesome`, so it
ignores the options the runner passes it). -/
def setupAllSteps (p : Providers) : List Step :=
  [fun options => some <$> stepConfigureNodeEnv options configureNodeEnv,
   fun options => some <$> stepConfigureGoogle options
     (configureGoogleProject p.world) (getProjectName p.fsRead p.jsonParse),
   fun options => some <$> stepConfigureFirebaseProject options
     (fun opts => configureFirebase
       (makeFirebaseConfigurationSteps p.world p.loginFn opts)),
   fun _ => some <$> stepConfigureFontAwesome
     (configureFontAwesome
       (makeFontAwesomeConfigurationSteps p.env p.world p.prompter)),
   fun _ => some <$> stepFinish]

/-- `setup(options = {})`: the full-setup sequence.  The `allSteps` array is
local to the call, so the runner's in-place consumption of it is not
observable; only the Result is returned. -/
def setup (p : Providers) (options : Opts) : Eff (Option Result) := do
  logInfo ["Setting up the environment ..."]
  Prod.fst <$> runSteps (setupAllSteps p) options

/-- The `allSteps` list of `setupFirebase` (the deployment-link-only flow). -/
def setupFirebaseAllSteps (p : Providers) : List Step :=
  [fun options => some <$> stepConfigureGoogle options
     (configureGoogleProject p.world) (getProjectName p.fsRead p.jsonParse),
   fun options => some <$> stepConfigureFirebaseProject options
     (fun opts => configureFirebase
       (makeFirebaseConfigurationSteps p.world p.loginFn opts)),
   fun _ => some <$> stepFinish]

/-- `setupFirebase(options = {})`. -/
def setupFirebase (p : Providers) (options : Opts) : Eff (Option Result) := do
  logInfo ["Configuring Firebase ..."]
  Prod.fst <$> runSteps (setupFirebaseAllSteps p) options

/-- Exit code of the Node process after a `setup` (or `firebase`) subcommand
invocation: the commander action is `(options) => setup(options)`; the
resolved Result is discarded by commander, and the ops module contains no
`process.exit` call and no assignment to `process.exitCode`, so whatever
Result the sequence resolved with, the process exits with Node's default
code 0 once the event loop drains. -/
def setupCommandExitCode (_finalResult : Option Result) : Nat := 0

/-! ## exec wrapper, stream semantics (exec module) -/

/-- Events emitted by a spawned child process, in temporal order. -/
inductive ProcEvent where
  | stdoutData (data : String)
  | stderrData (data : String)
  | exited (code : Option Int)
  | closed (code : Option Int)
deriving DecidableEq, Repr

/-- State of the `exec` promise executor while the child process runs:
the accumulated `stderr`/`stdout` strings and the value the promise was
resolved with, if any (a promise resolves at most once; later `resolve`
calls are no-ops). -/
structure ExecState where
  resolved : Option ExecResponse := none
  stderr : String := ""
  stdout : String := ""
deriving DecidableEq, Repr

/-- One handler dispatch of the `exec` wrapper:

* `stdout.on('data')` appends to `stdout`;
* `stderr.on('data')` appends to `stderr` and resolves `{code: 1, stderr, stdout}`;
* `on('exit')` and `on('close')` resolve `{code, stderr, stdout}`.

The resolved value captures the (immutable) strings current at resolution
time. -/
def execHandle (st : ExecState) (e : ProcEvent) : ExecState :=
  match e with
  | .stdoutData data => { st with stdout := st.stdout ++ data }
  | .stderrData data =>
    let st := { st with stderr := st.stderr ++ data }
    match st.resolved with
    | some _ => st
    | none =>
      { st with resolved := some { code := some 1, stderr := st.stderr, stdout := st.stdout } }
  | .exited code =>
    match st.resolved with
    | some _ => st
    | none =>
      { st with resolved := some { code := code, stderr := st.stderr, stdout := st.stdout } }
  | .closed code =>
    match st.resolved with
    | some _ => st
    | none =>
      { st with resolved := some { code := code, stderr := st.stderr, stdout := st.stdout } }

/-- The value the `exec` wrapper's promise resolves with, given the ordered
events the spawned process emits (`none` if the process emits nothing that
resolves the promise). -/
def execOnEvents (events : List ProcEvent) : Option ExecResponse :=
  (events.foldl execHandle {}).resolved

/-- Whether a process event is one of the two terminal events (`exit`,
`close`) that report an exit code.  In Node the `close` event fires only
after `exit`, so "before the exit event" entails "before any terminal
event". -/
def ProcEvent.isTermination : ProcEvent → Bool
  | .exited _ => true
  | .closed _ => true
  | _ => false

/-! ## Observation devices for the runner

To observe which steps `runSteps` invokes (and with which options object),
a probe step records its index and the options it received as a `probe`
event and returns a prescribed Result.  A family `f : Nat → Result` of
prescribed Results covers every possible sequence of step outcomes. -/

/-- A step that records its invocation and returns `f i`. -/
def probeStep (f : Nat → Result) (i : Nat) : Step :=
  fun options => fun tr => (some (f i), tr ++ [.probe i options])

/-- The sequence of `N` probe steps with outcomes prescribed by `f`. -/
def probeSteps (f : Nat → Result) (N : Nat) : List Step :=
  (List.range N).map (probeStep f)

/-- The indices of the steps the runner invokes when running the steps at
the given indices with outcomes `f`: every index up to and including the
first one whose outcome is an error. -/
def invokedOf (f : Nat → Result) : List Nat → List Nat
  | [] => []
  | i :: is => if (f i).error then [i] else i :: invokedOf f is

/-- The index of the step whose Result the runner returns: the first one
whose outcome is an error, else the last one. -/
def returnedOf (f : Nat → Result) : List Nat → Option Nat
  | [] => none
  | [i] => some i
  | i :: is => if (f i).error then some i else returnedOf f is

/-- The log events the runner emits for a failing Result: the `message`
at error severity when present and non-empty, then the `messages` lines
at normal severity when present. -/
def errLogOf (r : Result) : List Event :=
  (match r.message with
   | some m => if m.length > 0 then [Event.log .error [m]] else []
   | none => []) ++
  (match r.messages with
   | some ms => [Event.log .normal ms]
   | none => [])

/-! ## Concrete sample collaborators (used to exercise concrete runs) -/

/-- A file system on which every read fails with `ENOENT`. -/
def enoentFs : String → Except JsError String :=
  fun _ => .error { message := "ENOENT: no such file or directory" }

/-- A shell on which every command exits 0 silently. -/
def okWorld : String → ExecResponse :=
  fun _ => { code := some 0 }

/-- A prompter that resolves with an empty answers object. -/
def emptyPrompter : Prompter := fun _ => pure (.ok {})

/-- A login provider that resolves with a user lacking an email. -/
def noLogin : Eff (Except JsError LoginUser) := pure (.ok {})

/-- A JSON parser that always reports the truncated-input error. -/
def failParse : String → Except JsError Json :=
  fun _ => .error { message := "Unexpected end of JSON input" }

/-- A provider set under which the registry file is missing: the
cloud-project step fails. -/
def missingRegistryProviders : Providers :=
  { env := {}, world := okWorld, fsRead := enoentFs, jsonParse := failParse,
    prompter := emptyPrompter, loginFn := noLogin }

/-- A fully-populated options value, as the `setup` subcommand builds it
from its flag defaults. -/
def sampleSetupOpts : Opts :=
  { directory := some "/work/app", projectKey := some "default",
    env := some "development" }

/-- A step-outcome prescription where step 1 fails and every other step
succeeds. -/
def failAtOne : Nat → Result :=
  fun i => if i = 1 then { error := true, message := some "step one failed" } else {}

/-- A step-outcome prescription where every step succeeds. -/
def alwaysOk : Nat → Result := fun _ => {}

/-- A step that performs no effect and succeeds. -/
def trivialStep : Step := fun _ => pure (some {})

/-- The spec's example registry file text. -/
def sampleRegistryText : String :=
  "\x7b \"projects\": \x7b \"default\": \"acme-prod\" \x7d \x7d"

/-- The spec's example registry mapping. -/
def sampleRegistryProjects : Json := Json.obj [("default", Json.str "acme-prod")]

/-- The parsed example registry file. -/
def sampleRegistryJson : Json := Json.obj [("projects", sampleRegistryProjects)]

/-- A file system on which every read yields the example registry text. -/
def sampleRegistryFs : String → Except JsError String :=
  fun _ => .ok sampleRegistryText

/-- A `JSON.parse` behavior mapping the example registry text to its parse. -/
def sampleRegistryParse : String → Except JsError Json :=
  fun _ => .ok sampleRegistryJson

/-- Options naming a projectKey that the example registry does not contain. -/
def missingKeyOpts : Opts :=
  { directory := some "/work/app", projectKey := some "missing-key" }

/-- A prompter that resolves with `{token: ""}` and no other effect. -/
def emptyTokenPrompter : Prompter :=
  fun _ => pure (.ok { token := some "" })

/-- A file system whose reads all reject with an Error whose message is
`"boom"`. -/
def boomFs : String → Except JsError String :=
  fun _ => .error { message := "boom" }

/-- A login provider that rejects with an Error whose message is `"boom"`. -/
def boomLogin : Eff (Except JsError LoginUser) := pure (.error { message := "boom" })

/-!
## Theorems

### The step runner
-/

/-- Running the error-logging block of `runSteps` appends exactly
`errLogOf result` to the trace. -/
theorem run_errorLogs (r : Result) {α : Type} (k : Eff α) (tr : List Event) :
    ((do
      (match r.message with
       | some m => if m.length > 0 then logError [m] else pure ()
       | none => pure ())
      (match r.messages with
       | some ms => logLog ms
       | none => pure ())
      k : Eff α).run tr) = k.run (tr ++ errLogOf r) := by
  rcases r with ⟨e, msg, msgs, rest⟩
  rcases msg with _ | m <;> rcases msgs with _ | ms <;>
    simp only [errLogOf, Eff.run_bind, Eff.run_pure] <;>
    try split_ifs
  all_goals simp [logError, logLog, emit, Eff.run, List.append_assoc]

/-- One unfolding of `runSteps` on a non-empty steps array. -/
theorem runSteps_cons_run (step : Step) (steps : List Step) (o : Opts)
    (tr : List Event) :
    (runSteps (step :: steps) o).run tr =
      match ((step o).run tr).1 with
      | none => ((none, steps), ((step o).run tr).2)
      | some result =>
        if result.error then
          ((some result, steps), ((step o).run tr).2 ++ errLogOf result)
        else if steps.length != 0 then
          (runSteps steps o).run ((step o).run tr).2
        else
          ((some result, steps), ((step o).run tr).2) := by
  simp only [runSteps, Eff.run_bind]
  cases h : ((step o).run tr).1 with
  | none => simp
  | some result =>
    by_cases he : result.error
    · simp only [he, Bool.not_true, Bool.false_and, if_true, if_false,
        Bool.true_and, reduceIte]
      rw [run_errorLogs]
      simp
    · simp only [he, Bool.not_false, Bool.true_and, if_false, reduceIte,
        Bool.false_and]
      by_cases hl : steps.length != 0 <;> simp [hl]

@[simp] theorem probeStep_run (f : Nat → Result) (i : Nat) (o : Opts)
    (tr : List Event) :
    ((probeStep f i) o).run tr = (some (f i), tr ++ [.probe i o]) := rfl

/-- Characterization of a `runSteps` run over probe steps: the result is
the prescribed Result of `returnedOf`'s index, the steps array retains
exactly the suffix after the invoked steps, and the trace records the
invoked indices in order followed by the error logs, if any. -/
theorem runSteps_probe (f : Nat → Result) (o : Opts) :
    ∀ (is : List Nat) (tr : List Event), is ≠ [] →
    ∃ r, returnedOf f is = some r ∧
      (runSteps (is.map (probeStep f)) o).run tr =
        ((some (f r), (is.map (probeStep f)).drop (invokedOf f is).length),
         tr ++ (invokedOf f is).map (fun i => Event.probe i o) ++
           (if (f r).error then errLogOf (f r) else []))
  | [], _, h => absurd rfl h
  | [i], tr, _ => by
    refine ⟨i, rfl, ?_⟩
    rw [List.map_cons, List.map_nil, runSteps_cons_run]
    by_cases hi : (f i).error <;>
      simp [hi, invokedOf, List.append_assoc]
  | i :: j :: is, tr, _ => by
    by_cases hi : (f i).error
    · refine ⟨i, by simp [returnedOf, hi], ?_⟩
      rw [List.map_cons, runSteps_cons_run]
      simp [hi, invokedOf, List.append_assoc]
    · obtain ⟨r, hr, hrun⟩ := runSteps_probe f o (j :: is)
        (tr ++ [.probe i o]) (by simp)
      refine ⟨r, by simp [returnedOf, hi, hr], ?_⟩
      rw [List.map_cons, runSteps_cons_run]
      simp only [probeStep_run, hi]
      simp only [List.map_cons, List.length_cons]
      rw [if_neg (by simp), if_pos (by simp)]
      simp only [List.map_cons] at hrun
      rw [hrun]
      simp [invokedOf, hi, List.append_assoc]

/-- `returnedOf` on a list of at least two indices. -/
theorem returnedOf_cons_cons (f : Nat → Result) (i : Nat) (l : List Nat)
    (hl : l ≠ []) :
    returnedOf f (i :: l) = if (f i).error then some i else returnedOf f l := by
  cases l with
  | nil => exact absurd rfl hl
  | cons b bs => rfl

/-- When every index in `as` succeeds and `j` fails, the invoked indices
are `as ++ [j]` and `j`'s Result is the one returned. -/
theorem invokedOf_firstFail (f : Nat → Result) (as : List Nat) (j : Nat)
    (bs : List Nat)
    (has : ∀ a ∈ as, (f a).error = false) (hj : (f j).error = true) :
    invokedOf f (as ++ j :: bs) = as ++ [j] ∧
      returnedOf f (as ++ j :: bs) = some j := by
  induction as with
  | nil =>
    refine ⟨by simp [invokedOf, hj], ?_⟩
    cases bs with
    | nil => rfl
    | cons b bs' =>
      rw [List.nil_append, returnedOf_cons_cons f j (b :: bs') (by simp), if_pos hj]
  | cons a as ih =>
    have ha := has a (by simp)
    obtain ⟨h1, h2⟩ := ih (fun x hx => has x (by simp [hx]))
    refine ⟨by simp [invokedOf, ha, h1], ?_⟩
    rw [List.cons_append, returnedOf_cons_cons f a _ (by simp),
      if_neg (by simp [ha]), h2]

/-- When every index succeeds, all indices are invoked and the last
Result is the one returned. -/
theorem invokedOf_allOk (f : Nat → Result) (as : List Nat) (j : Nat)
    (has : ∀ a ∈ as ++ [j], (f a).error = false) :
    invokedOf f (as ++ [j]) = as ++ [j] ∧
      returnedOf f (as ++ [j]) = some j := by
  induction as with
  | nil => exact ⟨by simp [invokedOf, has j (by simp)], rfl⟩
  | cons a as ih =>
    have ha := has a (by simp)
    obtain ⟨h1, h2⟩ := ih (fun x hx => has x (by simp at hx ⊢; tauto))
    refine ⟨by simp [invokedOf, ha, h1], ?_⟩
    rw [List.cons_append, returnedOf_cons_cons f a _ (by simp),
      if_neg (by simp [ha]), h2]

/-- **C1** (short-circuit property): for every options value, every initial
trace, and every sequence of `N` probe steps whose Results are prescribed by
`f`, if step `k` (0-indexed here; the claim's 1-indexed step is `k+1`, and
`k + 1 < N` says it is not the last step) is the first step whose Result has
`error: true`, then `runSteps` invokes exactly steps `0..k` in order — the
trace records exactly the probe events `0..k`, each carrying the same shared
options object — returns step `k`'s Result unchanged, and never invokes steps
`k+1..N-1` (no later probe event appears; only `k`'s failure logs follow). -/
theorem runSteps_short_circuit_on_first_failure
    (f : Nat → Result) (o : Opts) (tr : List Event) (N k : Nat)
    (hk : k + 1 < N) (herr : (f k).error = true)
    (hpre : ∀ i, i < k → (f i).error = false) :
    (runSteps (probeSteps f N) o).run tr =
      ((some (f k), (probeSteps f N).drop (k + 1)),
       tr ++ (List.range (k + 1)).map (fun i => Event.probe i o) ++
         errLogOf (f k)) := by
  have hsplit : List.range N
      = List.range k ++ k :: (List.range (N - (k+1))).map (fun x => (k+1) + x) := by
    have h1 : N = (k + 1) + (N - (k + 1)) := by omega
    rw [h1, List.range_add, List.range_succ]
    simp [List.append_assoc]
  have hinv := invokedOf_firstFail f (List.range k) k
    ((List.range (N - (k+1))).map (fun x => (k+1) + x))
    (fun a ha => hpre a (List.mem_range.mp ha)) herr
  obtain ⟨r, hr, hrun⟩ := runSteps_probe f o (List.range N) tr
    (by simp; omega)
  rw [hsplit] at hr
  rw [hinv.2] at hr
  have hrk : r = k := by injection hr.symm
  rw [hrk] at hrun
  rw [probeSteps, hrun, hsplit, hinv.1]
  have hlen : (List.range k ++ [k]).length = k + 1 := by simp
  rw [hlen, if_pos herr]
  congr 2
  rw [← List.range_succ]

/-- Witness for C1: three probe steps of which step 1 (0-indexed) fails. -/
theorem runSteps_short_circuit_on_first_failure_witness :
    (1 + 1 < 3 ∧ (failAtOne 1).error = true ∧
      (∀ i, i < 1 → (failAtOne i).error = false)) ∧
    (runSteps (probeSteps failAtOne 3) {}).run [] =
      ((some (failAtOne 1), (probeSteps failAtOne 3).drop 2),
       [] ++ (List.range 2).map (fun i => Event.probe i {}) ++
         errLogOf (failAtOne 1)) :=
  ⟨⟨by decide, by decide, by decide⟩,
   runSteps_short_circuit_on_first_failure failAtOne {} [] 3 1
     (by decide) (by decide) (by decide)⟩

/-- **C2** (pass-through property): for every options value, initial trace
and sequence of `N ≥ 1` probe steps all of whose prescribed Results have
`error: false`, `runSteps` invokes all `N` steps in order — the trace records
the probe events `0..N-1`, each carrying the same shared options object —
and returns the last step's Result. -/
theorem runSteps_pass_through
    (f : Nat → Result) (o : Opts) (tr : List Event) (N : Nat)
    (hN : 0 < N) (hok : ∀ i, i < N → (f i).error = false) :
    (runSteps (probeSteps f N) o).run tr =
      ((some (f (N - 1)), []),
       tr ++ (List.range N).map (fun i => Event.probe i o)) := by
  have hsplit : List.range N = List.range (N - 1) ++ [N - 1] := by
    have h1 : N = (N - 1) + 1 := by omega
    rw [h1, List.range_succ]
    simp
  have hinv := invokedOf_allOk f (List.range (N - 1)) (N - 1)
    (by
      rw [← hsplit]
      intro a ha
      exact hok a (List.mem_range.mp ha))
  obtain ⟨r, hr, hrun⟩ := runSteps_probe f o (List.range N) tr (by simp; omega)
  rw [hsplit, hinv.2] at hr
  have hrk : r = N - 1 := by injection hr.symm
  rw [hrk] at hrun
  rw [probeSteps, hrun, hsplit, hinv.1]
  have hlen : (List.range (N-1) ++ [N-1]).length = N := by simp; omega
  rw [hlen, if_neg (by simp [hok (N-1) (by omega)]), ← hsplit]
  simp

/-- Witness for C2: two all-succeeding probe steps. -/
theorem runSteps_pass_through_witness :
    (0 < 2 ∧ (∀ i, i < 2 → (alwaysOk i).error = false)) ∧
    (runSteps (probeSteps alwaysOk 2) {}).run [] =
      ((some (alwaysOk 1), []),
       [] ++ (List.range 2).map (fun i => Event.probe i {})) :=
  ⟨⟨by decide, by decide⟩,
   runSteps_pass_through alwaysOk {} [] 2 (by decide) (by decide)⟩

/-- **C7** (runner totality): for every non-empty steps array whose steps
all return a Result without throwing (modelled as `isSome`), `runSteps`
returns a Result and never throws itself. -/
theorem runSteps_never_throws (steps : List Step) (o : Opts)
    (hne : steps ≠ [])
    (hsteps : ∀ s ∈ steps, ∀ o' tr', (((s o').run tr').1).isSome)
    (tr : List Event) :
    (((runSteps steps o).run tr).1.1).isSome := by
  induction steps generalizing tr with
  | nil => exact absurd rfl hne
  | cons s ss ih =>
    obtain ⟨r, hr⟩ := Option.isSome_iff_exists.mp (hsteps s (by simp) o tr)
    rw [runSteps_cons_run, hr]
    by_cases he : r.error
    · simp [he]
    · by_cases hl : ss.length != 0
      · simp only [he, Bool.false_eq_true, if_false, hl, if_true]
        exact ih (by intro h; subst h; simp at hl)
          (fun s' hs' => hsteps s' (by simp [hs'])) _
      · simp [he, hl]

/-- Witness for C7: a one-element steps array with a non-throwing step. -/
theorem runSteps_never_throws_witness :
    (([trivialStep] : List Step) ≠ [] ∧
      (∀ s ∈ [trivialStep], ∀ o' tr', (((s o').run tr').1).isSome)) ∧
    (((runSteps [trivialStep] {}).run []).1.1).isSome :=
  ⟨⟨by simp, fun s hs o' tr' => by
      simp only [List.mem_singleton] at hs
      subst hs
      rfl⟩,
   runSteps_never_throws [trivialStep] {} (by simp)
     (fun s hs o' tr' => by
       simp only [List.mem_singleton] at hs
       subst hs
       rfl) []⟩

/-- **C10** (in-place consumption of the steps array): for every probe-step
sequence, options value and initial trace, each invoked step is removed from
the front of the caller's array — after `runSteps` returns, the array state
is exactly the suffix of never-invoked steps (`drop` of the number of
invoked steps, where the trace records exactly the invoked indices). -/
theorem runSteps_consumes_steps_array (f : Nat → Result) (o : Opts)
    (tr : List Event) (N : Nat) (hN : N ≠ 0) :
    ∃ r, returnedOf f (List.range N) = some r ∧
      (runSteps (probeSteps f N) o).run tr =
        ((some (f r), (probeSteps f N).drop (invokedOf f (List.range N)).length),
         tr ++ (invokedOf f (List.range N)).map (fun i => Event.probe i o) ++
           (if (f r).error then errLogOf (f r) else [])) := by
  rw [probeSteps]
  exact runSteps_probe f o (List.range N) tr (by simp [hN])

/-- Witness for C10: two probe steps of which the second fails; both are
invoked and removed, leaving the empty array. -/
theorem runSteps_consumes_steps_array_witness :
    ((2 : Nat) ≠ 0) ∧
    (∃ r, returnedOf failAtOne (List.range 2) = some r ∧
      (runSteps (probeSteps failAtOne 2) {}).run [] =
        ((some (failAtOne r),
          (probeSteps failAtOne 2).drop (invokedOf failAtOne (List.range 2)).length),
         [] ++ (invokedOf failAtOne (List.range 2)).map
             (fun i => Event.probe i {}) ++
           (if (failAtOne r).error then errLogOf (failAtOne r) else []))) :=
  ⟨by decide, runSteps_consumes_steps_array failAtOne {} [] 2 (by decide)⟩

/-!
### Step failure contracts
-/

/-- **C6** (remediation completeness): for each of the step functions wired
into the two sequences (`setup` and `setupFirebase`), under every provider
and every options value, a failing execution returns a Result carrying a
`message` or a `messages` field (in fact each failure branch attaches
`messages`); and the remaining step, `stepFinish`, never fails. -/
theorem step_failure_results_include_remediation :
    (∀ (options : Opts) (executable : Option String → Result) (tr : List Event),
      (((stepConfigureNodeEnv options executable).run tr).1).error = true →
        ((((stepConfigureNodeEnv options executable).run tr).1).message.isSome ∨
         (((stepConfigureNodeEnv options executable).run tr).1).messages.isSome)) ∧
    (∀ (options : Opts) (parser : Option String → Eff Result)
        (reader : Opts → Eff Result) (tr : List Event),
      (((stepConfigureGoogle options parser reader).run tr).1).error = true →
        ((((stepConfigureGoogle options parser reader).run tr).1).message.isSome ∨
         (((stepConfigureGoogle options parser reader).run tr).1).messages.isSome)) ∧
    (∀ (options : Opts) (executable : Opts → Eff Result) (tr : List Event),
      (((stepConfigureFirebaseProject options executable).run tr).1).error = true →
        ((((stepConfigureFirebaseProject options executable).run tr).1).message.isSome ∨
         (((stepConfigureFirebaseProject options executable).run tr).1).messages.isSome)) ∧
    (∀ (executable : Eff Result) (tr : List Event),
      (((stepConfigureFontAwesome executable).run tr).1).error = true →
        ((((stepConfigureFontAwesome executable).run tr).1).message.isSome ∨
         (((stepConfigureFontAwesome executable).run tr).1).messages.isSome)) ∧
    (∀ tr : List Event, ((stepFinish.run tr).1).error = false) := by
  refine ⟨?_, ?_, ?_, ?_, ?_⟩
  · intro options executable tr
    simp only [stepConfigureNodeEnv, Eff.run_bind, Eff.run_pure]
    split_ifs with h1 <;> simp [h1]
  · intro options parser reader tr
    simp only [stepConfigureGoogle, Eff.run_bind, Eff.run_pure]
    split_ifs with h1
    · simp [h1]
    · simp only [Eff.run_bind, Eff.run_pure]
      split_ifs with h2
      · simp
      · simp [h2]
  · intro options executable tr
    simp only [stepConfigureFirebaseProject, Eff.run_bind, Eff.run_pure]
    split_ifs with h1 <;> simp [h1]
  · intro executable tr
    simp only [stepConfigureFontAwesome, Eff.run_bind, Eff.run_pure]
    split_ifs with h1 <;> simp [h1]
  · intro tr
    simp [stepFinish]

/-- Witness for C6: the runtime-mode step with its real default executable
fails on an options value without `env`, and the failing Result carries
remediation. -/
theorem step_failure_results_include_remediation_witness :
    (((stepConfigureNodeEnv {} configureNodeEnv).run []).1).error = true ∧
    ((((stepConfigureNodeEnv {} configureNodeEnv).run []).1).message.isSome ∨
     (((stepConfigureNodeEnv {} configureNodeEnv).run []).1).messages.isSome) :=
  ⟨rfl, step_failure_results_include_remediation.1 {} configureNodeEnv [] rfl⟩

/-- **C4** (missing registry key): for every options value, provider set and
registry content such that the registry file read and parse succeed, the
parsed registry is valid, and the options' `projectKey` is absent from its
`projects` mapping, the cloud-project step (`stepConfigureGoogle` wired to
`configureGoogleProject` and `getProjectName`) returns a Result with
`error: true` and the shell — in particular the
`gcloud config set project` command — is never invoked (no `execCmd` event
appears in the trace). -/
theorem cloud_step_missing_key_never_invokes_gcloud
    (world : String → ExecResponse)
    (fsRead : String → Except JsError String)
    (jsonParse : String → Except JsError Json)
    (options : Opts) (text : String) (j projs : Json)
    (hread : ∀ d, options.directory = some d →
      fsRead (pathJoin d ".firebaserc") = .ok text)
    (hparse : jsonParse text = .ok j)
    (hvalid : (validateFirebaserc (some j)).error = false)
    (hprojs : j.get "projects" = some projs)
    (habsent : ∀ k, options.projectKey = some k → projs.get k = none) :
    (((stepConfigureGoogle options (configureGoogleProject world)
        (getProjectName fsRead jsonParse)).run []).1).error = true ∧
    (∀ c, Event.execCmd c ∉
      ((stepConfigureGoogle options (configureGoogleProject world)
        (getProjectName fsRead jsonParse)).run []).2) := by
  have main : ∀ t, (((getProjectName fsRead jsonParse options).run t).1).error = true ∧
      (((getProjectName fsRead jsonParse options).run t).2 = t ∨
        ∃ p, ((getProjectName fsRead jsonParse options).run t).2 = t ++ [Event.fsRead p]) := by
    intro t
    rcases hdir : options.directory with _ | d
    · refine ⟨?_, Or.inl ?_⟩ <;>
        simp [getProjectName, validateOptions, runValidators, validateDirectory,
          validateProjectKey, hdir]
    · by_cases hd0 : d.length > 0
      · rcases hkey : options.projectKey with _ | k
        · refine ⟨?_, Or.inl ?_⟩ <;>
            simp [getProjectName, validateOptions, runValidators, validateDirectory,
              validateProjectKey, hdir, hkey, hd0]
        · by_cases hk0 : k.length > 0
          · have hr := hread d hdir
            have hab := habsent k hkey
            refine ⟨?_, Or.inr ⟨pathJoin d ".firebaserc", ?_⟩⟩ <;>
              simp [getProjectName, validateOptions, runValidators, validateDirectory,
                validateProjectKey, hdir, hkey, hd0, hk0,
                readProjectNameFromFirebaserc, getFirebasercProjects, getFirebaserc,
                readFirebaserc, hr, parseFirebaserc, parseJson, hparse,
                findProjectsInFirebaserc, hvalid, hprojs, findProjectNameByKey, hab,
                validateProjectName]
          · refine ⟨?_, Or.inl ?_⟩ <;>
              simp [getProjectName, validateOptions, runValidators, validateDirectory,
                validateProjectKey, hdir, hkey, hd0, hk0]
      · refine ⟨?_, Or.inl ?_⟩ <;>
          simp [getProjectName, validateOptions, runValidators, validateDirectory,
            validateProjectKey, hdir, hd0]
  obtain ⟨h1, h2⟩ := main [Event.log .info ["Configuring Google Cloud ..."]]
  constructor
  · simp only [stepConfigureGoogle, Eff.run_bind, Eff.run_emit, Eff.run_pure,
      logInfo, logLog]
    simp [h1]
  · intro c
    simp only [stepConfigureGoogle, Eff.run_bind, Eff.run_emit, Eff.run_pure,
      logInfo, logLog]
    simp [h1]
    rcases h2 with h2 | ⟨p, h2⟩ <;> simp [h2]

/-- Witness for C4: the spec's example registry
`{"projects": {"default": "acme-prod"}}` with `projectKey: "missing-key"`. -/
theorem cloud_step_missing_key_never_invokes_gcloud_witness :
    ((∀ d, missingKeyOpts.directory = some d →
        sampleRegistryFs (pathJoin d ".firebaserc") = .ok sampleRegistryText) ∧
      sampleRegistryParse sampleRegistryText = .ok sampleRegistryJson ∧
      (validateFirebaserc (some sampleRegistryJson)).error = false ∧
      sampleRegistryJson.get "projects" = some sampleRegistryProjects ∧
      (∀ k, missingKeyOpts.projectKey = some k →
        sampleRegistryProjects.get k = none)) ∧
    ((((stepConfigureGoogle missingKeyOpts (configureGoogleProject okWorld)
        (getProjectName sampleRegistryFs sampleRegistryParse)).run []).1).error = true ∧
      (∀ c, Event.execCmd c ∉
        ((stepConfigureGoogle missingKeyOpts (configureGoogleProject okWorld)
          (getProjectName sampleRegistryFs sampleRegistryParse)).run []).2)) :=
  ⟨⟨fun _ _ => rfl, rfl, rfl, rfl,
    fun k hk => by
      simp only [missingKeyOpts, Option.some.injEq] at hk
      subst hk
      rfl⟩,
   cloud_step_missing_key_never_invokes_gcloud okWorld sampleRegistryFs
     sampleRegistryParse missingKeyOpts sampleRegistryText sampleRegistryJson
     sampleRegistryProjects (fun _ _ => rfl) rfl rfl rfl
     (fun k hk => by
       simp only [missingKeyOpts, Option.some.injEq] at hk
       subst hk
       rfl)⟩

/-- **C5** (empty token short-circuit): for every prompter that resolves
with `{token: ""}` (and performs no other effect), the package-registry
credential step returns a Result with `error: true` and message
`"The Font Awesome token is invalid."` (plus the wrapper's `messages`
line), and the package manager is never invoked: no `execCmd` event — in
particular neither `npm config set` command — appears in the trace. -/
theorem fontawesome_empty_token_never_invokes_npm
    (env : EnvVars) (world : String → ExecResponse) (prompter : Prompter)
    (hprompt : ∀ qs t, (prompter qs).run t = (.ok { token := some "" }, t)) :
    (((stepConfigureFontAwesome (configureFontAwesome
        (makeFontAwesomeConfigurationSteps env world prompter))).run []).1 =
      { error := true, message := some "The Font Awesome token is invalid.",
        messages := some ["Failed to configure Font Awesome."],
        token := some "" }) ∧
    (∀ c, Event.execCmd c ∉ ((stepConfigureFontAwesome (configureFontAwesome
        (makeFontAwesomeConfigurationSteps env world prompter))).run []).2) := by
  have hbody : ((stepConfigureFontAwesome (configureFontAwesome
      (makeFontAwesomeConfigurationSteps env world prompter))).run []) =
      ({ error := true, message := some "The Font Awesome token is invalid.",
         messages := some ["Failed to configure Font Awesome."],
         token := some "" },
       [.log .info ["Setting up Font Awesome ... \n"],
        .log .info [s!"Obtain the Font Awesome token from {FONT_AWESOME_TOKEN_LOCATION env}"]]) := by
    simp only [stepConfigureFontAwesome, configureFontAwesome,
      makeFontAwesomeConfigurationSteps, obtainFontAwesomeToken,
      List.foldlM_cons, List.foldlM_nil,
      Eff.run_bind, Eff.run_pure, Eff.run_emit, logInfo, hprompt]
    simp [hprompt, jsOrElse]
  refine ⟨by rw [hbody], ?_⟩
  intro c
  rw [hbody]
  simp

/-- Witness for C5: the prompter `emptyTokenPrompter`. -/
theorem fontawesome_empty_token_never_invokes_npm_witness :
    (∀ qs t, (emptyTokenPrompter qs).run t = (.ok { token := some "" }, t)) ∧
    ((((stepConfigureFontAwesome (configureFontAwesome
        (makeFontAwesomeConfigurationSteps {} okWorld emptyTokenPrompter))).run []).1 =
      { error := true, message := some "The Font Awesome token is invalid.",
        messages := some ["Failed to configure Font Awesome."],
        token := some "" }) ∧
      (∀ c, Event.execCmd c ∉ ((stepConfigureFontAwesome (configureFontAwesome
        (makeFontAwesomeConfigurationSteps {} okWorld emptyTokenPrompter))).run []).2)) :=
  ⟨fun _ _ => rfl,
   fontawesome_empty_token_never_invokes_npm {} okWorld emptyTokenPrompter
     (fun _ _ => rfl)⟩

/-- **C8** (exception-to-Result conversion): for every file-system provider
that rejects reading the registry file with an Error whose message is
`"boom"` and every login provider that rejects with such an Error — the
stack text being arbitrary — the wrapping code returns exactly
`{error: true, message: "boom"}`: the Result carries no stack-trace text
(it does not depend on `stack` at all). -/
theorem caught_boom_becomes_error_result (d stack : String)
    (fsRead : String → Except JsError String)
    (hread : fsRead (pathJoin d ".firebaserc")
      = .error { message := "boom", stack := stack })
    (loginFn : Eff (Except JsError LoginUser)) (tr : List Event)
    (hlogin : ∀ t, loginFn.run t
      = (.error { message := "boom", stack := stack }, t)) :
    ((readFirebaserc fsRead (some d)).run tr).1 =
      { error := true, message := some "boom" } ∧
    ((configureFirebaseLogin loginFn {}).run tr).1 =
      { error := true, message := some "boom" } := by
  constructor
  · simp only [readFirebaserc, Eff.run_bind, Eff.run_emit, hread, Eff.run_pure]
  · simp only [configureFirebaseLogin, Eff.run_bind, Eff.run_pure, hlogin]
    simp [jsOrElse]
    decide

/-- Witness for C8: the rejecting providers `boomFs` and `boomLogin`. -/
theorem caught_boom_becomes_error_result_witness :
    (boomFs (pathJoin "/app" ".firebaserc") = .error { message := "boom" } ∧
      (∀ t, boomLogin.run t = (.error { message := "boom" }, t))) ∧
    (((readFirebaserc boomFs (some "/app")).run []).1 =
        { error := true, message := some "boom" } ∧
      ((configureFirebaseLogin boomLogin {}).run []).1 =
        { error := true, message := some "boom" }) :=
  ⟨⟨rfl, fun _ => rfl⟩,
   caught_boom_becomes_error_result "/app" "" boomFs rfl boomLogin []
     (fun _ => rfl)⟩

/-!
### The streaming exec wrapper
-/

/-- Once the `exec` promise is resolved, later process events cannot change
the resolved value. -/
theorem execHandle_resolved_monotone (st : ExecState) (e : ProcEvent)
    (resp : ExecResponse) (h : st.resolved = some resp) :
    (execHandle st e).resolved = some resp := by
  cases e <;> simp [execHandle, h]

/-- `execHandle_resolved_monotone` lifted to a whole event sequence. -/
theorem foldl_resolved_monotone (events : List ProcEvent) (st : ExecState)
    (resp : ExecResponse) (h : st.resolved = some resp) :
    (events.foldl execHandle st).resolved = some resp := by
  induction events generalizing st with
  | nil => exact h
  | cons e es ih => exact ih _ (execHandle_resolved_monotone st e resp h)

/-- Before any terminal event, the promise is either unresolved or already
resolved with code 1 (by an earlier stderr datum). -/
theorem foldl_no_termination (pre : List ProcEvent)
    (hpre : ∀ e ∈ pre, e.isTermination = false) :
    ∀ st : ExecState,
      (st.resolved = none ∨ ∃ resp, st.resolved = some resp ∧ resp.code = some 1) →
      ((pre.foldl execHandle st).resolved = none ∨
        ∃ resp, (pre.foldl execHandle st).resolved = some resp ∧
          resp.code = some 1) := by
  induction pre with
  | nil => intro st h; exact h
  | cons e es ih =>
    intro st h
    have he := hpre e (by simp)
    refine ih (fun x hx => hpre x (by simp [hx])) _ ?_
    cases e with
    | stdoutData data =>
      rcases h with h | ⟨resp, hr, hc⟩
      · exact Or.inl (by simp [execHandle, h])
      · exact Or.inr ⟨resp, by simp [execHandle, hr], hc⟩
    | stderrData data =>
      rcases h with h | ⟨resp, hr, hc⟩
      · have hres : (execHandle st (ProcEvent.stderrData data)).resolved =
            some { code := some 1, stderr := st.stderr ++ data, stdout := st.stdout } := by
          simp [execHandle, h]
        exact Or.inr ⟨_, hres, rfl⟩
      · exact Or.inr ⟨resp, by simp [execHandle, hr], hc⟩
    | exited c => simp [ProcEvent.isTermination] at he
    | closed c => simp [ProcEvent.isTermination] at he

/-- **C9** (stderr forces failure): for every process event sequence in
which some stderr datum precedes the terminal events (in Node, `close`
fires only after `exit`, so "before the exit event" gives exactly this
shape), the `exec` wrapper resolves with `code: 1`, regardless of the exit
code the process eventually reports in the remaining events. -/
theorem exec_stderr_before_exit_resolves_code_one
    (pre post : List ProcEvent) (data : String)
    (hpre : ∀ e ∈ pre, e.isTermination = false) :
    ∃ resp, execOnEvents (pre ++ .stderrData data :: post) = some resp ∧
      resp.code = some 1 := by
  have h1 := foldl_no_termination pre hpre {} (Or.inl rfl)
  have h2 : ∃ resp,
      (execHandle (pre.foldl execHandle {}) (.stderrData data)).resolved = some resp ∧
        resp.code = some 1 := by
    rcases h1 with h | ⟨resp, hr, hc⟩
    · have hres : (execHandle (pre.foldl execHandle {}) (.stderrData data)).resolved =
          some { code := some 1, stderr := (pre.foldl execHandle {}).stderr ++ data,
                 stdout := (pre.foldl execHandle {}).stdout } := by
        simp [execHandle, h]
      exact ⟨_, hres, rfl⟩
    · exact ⟨resp, by simp [execHandle, hr], hc⟩
  rcases h2 with ⟨resp, hr, hc⟩
  refine ⟨resp, ?_, hc⟩
  rw [execOnEvents, List.foldl_append, List.foldl_cons]
  exact foldl_resolved_monotone post _ resp hr

/-- Witness for C9: a process that writes to stdout, then to stderr, then
exits 0 — the wrapper still resolves with code 1. -/
theorem exec_stderr_before_exit_resolves_code_one_witness :
    (∀ e ∈ [ProcEvent.stdoutData "hello"], e.isTermination = false) ∧
    (∃ resp,
      execOnEvents ([ProcEvent.stdoutData "hello"] ++
        .stderrData "warning" :: [.exited (some 0)]) = some resp ∧
      resp.code = some 1) :=
  ⟨by decide,
   exec_stderr_before_exit_resolves_code_one [ProcEvent.stdoutData "hello"]
     [.exited (some 0)] "warning" (by decide)⟩

/-!
### CLI exit behavior
-/

/-- **C3** (exit code): a concrete `ops setup` invocation on which the
registry file is missing — the cloud-project step fails, the sequence's
final Result has `error: true` — yet the process exit code is 0, because
the commander action discards the resolved Result and the module never
calls `process.exit` nor assigns `process.exitCode`
(`setupCommandExitCode`).  This contradicts the claim that the exit code
is nonzero iff the final Result has `error: true`; the spec's stated
intent (a nonzero exit on failure) is not implemented. -/
theorem setup_failure_still_exits_zero :
    ((((setup missingRegistryProviders sampleSetupOpts).run []).1.map
        Result.error) = some true) ∧
    setupCommandExitCode
      (((setup missingRegistryProviders sampleSetupOpts).run []).1) = 0 :=
  ⟨rfl, rfl⟩

end Ops
